import Mathlib

set_option maxRecDepth 100000

/-!
# Verification of `fastapi_range_response`

A shallow embedding, in Lean 4, of the range-parsing and response-framing
core of the `fastapi_range_response` package
(`fastapi_range_response/_base.py`, `file_response.py`, `exceptions.py`),
together with theorems settling the specification claims about it.

Modelling conventions:
* Python `str` values are Lean `String`s; byte strings are `List Nat`
  (one `Nat` per byte).  `str.encode('latin-1')` maps each char to its
  code point (all strings involved are latin-1 encodable), and
  `str.encode('utf-8')` is modelled byte-for-byte by `utf8Str`.
* Machine integers are `Nat`; the only subtraction sites are guarded so
  that Python's signed arithmetic and Lean's truncated `Nat` subtraction
  agree (each such site carries a comment).
* `re.findall(r"(\d*)-(\d*)", s)` is modelled by `findall`: a left-to-right
  scan that at each position greedily takes a digit run, requires a
  literal `'-'`, then greedily takes a second digit run; on failure the
  scan advances one character.  (Backtracking cannot help this pattern:
  `\d*` can only give back digits, and `-` is not a digit, so maximal
  munch is exact.)  For latin-1 input, Python's `\d` is exactly `0`-`9`.
* `hashlib.md5(...).hexdigest()` is an external library call; the whole
  development is parametric in `md5hex : String → String`, the hex-digest
  function applied to the (latin-1/utf-8 coincident) input string.
* `email.utils.formatdate(t, usegmt=True)` is modelled by `formatdate`
  for `Nat` timestamps, via the standard civil-from-days calendar
  algorithm used by `time.gmtime`.
* ASGI events (`http.response.start` / `http.response.body`) are the
  `Event` inductive; each handler is a function returning its event trace.
  An uncaught Python exception (`ValueError` from `int('')`) is `none`.
-/

namespace FastapiRange

/-! ## Decimal strings: Python `str(n)` and `int(s)` for digit strings -/

/-- Python's `\d` restricted to latin-1 text: the ASCII digits. -/
def isDigitCh (c : Char) : Bool := 48 ≤ c.toNat && c.toNat ≤ 57

/-- The decimal digit characters. -/
def digitChar (d : Nat) : Char :=
  match d with
  | 0 => '0' | 1 => '1' | 2 => '2' | 3 => '3' | 4 => '4'
  | 5 => '5' | 6 => '6' | 7 => '7' | 8 => '8' | _ => '9'

/-- Fuelled decimal printer (structural recursion so the kernel can
evaluate it; `natChars` supplies sufficient fuel). -/
def natCharsF : Nat → Nat → List Char
  | 0, _ => []
  | fuel + 1, n =>
    if n < 10 then [digitChar n] else natCharsF fuel (n / 10) ++ [digitChar (n % 10)]

/-- The decimal digits of `n`, most significant first: Python `str(n)`
for a non-negative integer. -/
def natChars (n : Nat) : List Char := natCharsF (n + 1) n

/-- Python `str(n)` as a Lean `String`. -/
def natString (n : Nat) : String := ⟨natChars n⟩

/-- Python `int(s)` for a non-empty all-digit string. -/
def strToNat (s : List Char) : Nat :=
  s.foldl (fun a c => a * 10 + (c.toNat - 48)) 0

/-! ## `re.findall(r"(\d*)-(\d*)", s)` -/

/-- One attempt of the pattern `(\d*)-(\d*)` anchored at the head of `s`:
greedy digit run, literal `'-'`, greedy digit run.  Returns the two
captured groups and the unconsumed remainder. -/
def tryMatch (s : List Char) : Option (List Char × List Char × List Char) :=
  match s.dropWhile isDigitCh with
  | '-' :: r2 => some (s.takeWhile isDigitCh, r2.takeWhile isDigitCh, r2.dropWhile isDigitCh)
  | _ => none

/-- Fuelled scan of `re.findall`: try the pattern at the current position;
on success continue after the match, on failure advance one character.
Every successful match consumes at least the `'-'`, so fuel equal to the
length of the string (supplied by `findall`) is sufficient. -/
def findallF : Nat → List Char → List (List Char × List Char)
  | 0, _ => []
  | _, [] => []
  | fuel + 1, c :: rest =>
    match tryMatch (c :: rest) with
    | some (d1, d2, after) => (d1, d2) :: findallF fuel after
    | none => findallF fuel rest

/-- `re.findall(r"(\d*)-(\d*)", s)`: the list of `(start, end)` capture
pairs, in scan order. -/
def findall (s : List Char) : List (List Char × List Char) :=
  findallF s.length s

/-! ## `parse_range` (`BaseRangeResponse.parse_range`) -/

/-- The exceptions that can escape `parse_range`:
`MalformedRangeHeaderError(msg)` (HTTP 400), `RangeNotSatisfiableError(size)`
(HTTP 416), and the *uncaught* `ValueError` raised by `int('')` when a
suffix-form item `-N` makes `start` the empty string. -/
inductive RangeError
  | malformed (msg : String)
  | notSatisfiable (size : Nat)
  | valueError
  deriving DecidableEq, Repr

/-- Python `s.split('=', maxsplit=1)`: split at the first `'='`;
`none` models the `ValueError` of unpacking a 1-element result. -/
def splitEqF : List Char → Option (List Char × List Char)
  | [] => none
  | c :: rest =>
    if c = '=' then some ([], rest)
    else
      match splitEqF rest with
      | some (u, r) => some (c :: u, r)
      | none => none

/-- The `for start, end in re.findall(...)` loop body of `parse_range`,
processing the capture pairs in order and accumulating accepted ranges.
`size` is `self.file_size`.  (When `end == ''` and `size = 0` Python
stores `-1` where this model stores `0`; the value is dead in both,
because the `start` bound check — which precedes every use of `end` —
always raises for `size = 0`.) -/
def parseItems (size : Nat) : List (List Char × List Char) → List (Nat × Nat) →
    Except RangeError (List (Nat × Nat))
  | [], acc => .ok acc
  | (ds, de) :: rest, acc =>
    if ds = [] ∧ de = [] then parseItems size rest acc
    else if ds = [] then .error .valueError
    else
      let s := strToNat ds
      let e := if de = [] then size - 1 else strToNat de
      if ¬ s < size then .error (.notSatisfiable size)
      else
        let e2 := if size ≤ e then size - 1 else e
        if s > e2 then .error (.malformed "Range header: start must be less than end")
        else parseItems size rest (acc ++ [(s, e2)])

/-- `BaseRangeResponse.parse_range(range_line, max_size)`.  The Python
`max_size` parameter is unused by the body, which reads `self.file_size`;
the sole call site passes `self.file_size` for it, so the model takes the
single `size`. -/
def parse_range (range_line : String) (size : Nat) : Except RangeError (List (Nat × Nat)) :=
  match splitEqF range_line.data with
  | none => .error (.malformed "Malformed Range header")
  | some (unit, rangesStr) =>
    if unit = "bytes".data then
      match parseItems size (findall rangesStr) [] with
      | .error e => .error e
      | .ok ranges =>
        if ranges.length = 0 then .error (.malformed "Range header: range must be requested")
        else .ok ranges
    else .error (.malformed "Only support bytes range")

deriving instance DecidableEq for Except

/-- Whether a `parse_range` outcome is a `MalformedRangeHeaderError`. -/
def isMalformedResult (r : Except RangeError (List (Nat × Nat))) : Bool :=
  match r with
  | .error (.malformed _) => true
  | _ => false

/-! ## Chunked transmission (`parse_chunks` and `FileRangeResponse.send_file`) -/

/-- Fuelled body of the `while current_start < end` loop of
`BaseRangeResponse.parse_chunks`.  With `chunkSize ≥ 1` the loop runs at
most `e - s` times, so the fuel supplied by `parse_chunks` is sufficient
(for `chunkSize = 0` Python loops forever; no claim concerns that case). -/
def parse_chunksF (chunkSize : Nat) : Nat → Nat → Nat → List (Nat × Nat)
  | 0, _, _ => []
  | fuel + 1, cur, e =>
    if cur < e then (cur, min (cur + chunkSize) e) :: parse_chunksF chunkSize fuel (cur + chunkSize) e
    else []

/-- `BaseRangeResponse.parse_chunks(start, end)` with `self.chunk_size =
chunkSize`. -/
def parse_chunks (chunkSize s e : Nat) : List (Nat × Nat) :=
  parse_chunksF chunkSize (e - s) s e

/-- `FileRangeResponse.send_file`: seek to `s`, then for each
`(sub_start, sub_end)` of `parse_chunks` issue a sequential
`f.read(sub_end + 1 - sub_start)`.  `file` is the byte content of the
file; a read past end-of-file returns the bytes that remain, and the file
position advances by the number of bytes actually read.  Returns the list
of byte buffers passed to `send`. -/
def send_file_bytes (file : List Nat) (chunkSize s e : Nat) : List (List Nat) :=
  ((parse_chunks chunkSize s e).foldl
    (fun st (sub : Nat × Nat) =>
      let chunk := (file.drop st.2).take (sub.2 + 1 - sub.1)
      (st.1 ++ [chunk], st.2 + chunk.length))
    (([] : List (List Nat)), s)).1

/-! ## Multipart framing (`parse_multiple_header`) -/

/-- The `create_sub_header(l_start, l_end)` closure of
`parse_multiple_header` (as a string; it is sent latin-1 encoded). -/
def create_sub_header (mediaType : String) (size s e : Nat) : String :=
  "Content-Type: " ++ mediaType ++ "\n" ++
  "Content-Range: bytes " ++ natString s ++ "-" ++ natString e ++ "/" ++ natString size ++ "\n" ++
  "\n"

/-- `BaseRangeResponse.parse_multiple_header(ranges, boundary)`: the
precomputed total body length and the leading separator.  `e - s` is
Python's `end - start`; ranges reaching this function satisfy `s ≤ e`
(established by `parse_range`), where `Nat` and `int` subtraction agree. -/
def parse_multiple_header (mediaType : String) (size : Nat)
    (ranges : List (Nat × Nat)) (boundary : String) : Nat × String :=
  let startBody := "\n--" ++ boundary ++ "\n"
  let sumSize := startBody.length +
    ranges.foldl
      (fun acc (r : Nat × Nat) =>
        acc + ((create_sub_header mediaType size r.1 r.2).length
          + (r.2 - r.1) + 1 + ("\n" : String).length
          + ("--" ++ boundary ++ "\n" : String).length))
      0
  (sumSize, startBody)

/-! ## `formatdate(t, usegmt=True)` (`email.utils`) and the ETag -/

/-- `%02d`. -/
def two (n : Nat) : String := (if n < 10 then "0" else "") ++ natString n

/-- `%04d` (years in range are always ≥ 1970, but pad faithfully). -/
def four (n : Nat) : String :=
  (if n < 10 then "000" else if n < 100 then "00" else if n < 1000 then "0" else "") ++ natString n

/-- `email.utils` day names, indexed by `tm_wday` (Monday = 0). -/
def dayName (w : Nat) : String :=
  match w with
  | 0 => "Mon" | 1 => "Tue" | 2 => "Wed" | 3 => "Thu" | 4 => "Fri" | 5 => "Sat" | _ => "Sun"

/-- `email.utils` month names, indexed by `tm_mon` (January = 1). -/
def monthName (m : Nat) : String :=
  match m with
  | 1 => "Jan" | 2 => "Feb" | 3 => "Mar" | 4 => "Apr" | 5 => "May" | 6 => "Jun"
  | 7 => "Jul" | 8 => "Aug" | 9 => "Sep" | 10 => "Oct" | 11 => "Nov" | _ => "Dec"

/-- Proleptic-Gregorian date from days since 1970-01-01 (the civil-from-days
algorithm underlying `time.gmtime` for non-negative timestamps).  All
subtractions are non-underflowing for the values produced by the algorithm. -/
def civilFromDays (z0 : Nat) : Nat × Nat × Nat :=
  let z := z0 + 719468
  let era := z / 146097
  let doe := z % 146097
  let yoe := (doe - doe / 1460 + doe / 36524 - doe / 146096) / 365
  let y0 := yoe + era * 400
  let doy := doe - (365 * yoe + yoe / 4 - yoe / 100)
  let mp := (5 * doy + 2) / 153
  let d := doy - (153 * mp + 2) / 5 + 1
  let m := if mp < 10 then mp + 3 else mp - 9
  (if m ≤ 2 then y0 + 1 else y0, m, d)

/-- `email.utils.formatdate(t, usegmt=True)` for a whole-second timestamp:
`'%s, %02d %s %04d %02d:%02d:%02d GMT'` filled from `time.gmtime(t)`. -/
def formatdate (t : Nat) : String :=
  let days := t / 86400
  let secs := t % 86400
  let w := (days + 3) % 7
  let ymd := civilFromDays days
  dayName w ++ ", " ++ two ymd.2.2 ++ " " ++ monthName ymd.2.1 ++ " " ++ four ymd.1 ++ " " ++
    two (secs / 3600) ++ ":" ++ two (secs % 3600 / 60) ++ ":" ++ two (secs % 60) ++ " GMT"

/-- `BaseRangeResponse.generate_etag(mtime, size)`:
`hashlib.md5(f'{int(mtime)}-{size}'.encode()).hexdigest()`.  The whole
development is parametric in the external digest function `md5hex`;
`mtime` is modelled as the whole-second (`int(mtime)`) timestamp. -/
def generate_etag (md5hex : String → String) (mtime size : Nat) : String :=
  md5hex (natString mtime ++ "-" ++ natString size)

/-- `BaseRangeResponse.check_if_range(if_range_line, mtime, size)`. -/
def check_if_range (md5hex : String → String) (if_range_line : String) (mtime size : Nat) : Bool :=
  if_range_line == generate_etag md5hex mtime size || if_range_line == formatdate mtime

/-! ## `common_headers` (with `urllib.parse.quote`) -/

/-- UTF-8 encoding of one scalar value. -/
def utf8Bytes (c : Char) : List Nat :=
  let n := c.toNat
  if n < 0x80 then [n]
  else if n < 0x800 then [0xC0 + n / 0x40, 0x80 + n % 0x40]
  else if n < 0x10000 then [0xE0 + n / 0x1000, 0x80 + n / 0x40 % 0x40, 0x80 + n % 0x40]
  else [0xF0 + n / 0x40000, 0x80 + n / 0x1000 % 0x40, 0x80 + n / 0x40 % 0x40, 0x80 + n % 0x40]

/-- `s.encode('utf-8')`. -/
def utf8Str (s : String) : List Nat :=
  s.data.foldr (fun c acc => utf8Bytes c ++ acc) []

/-- `s.encode('latin-1')` (all strings sent as headers/bodies by the code
are latin-1 encodable, one byte per char). -/
def latin1Bytes (s : String) : List Nat := s.data.map Char.toNat

/-- The bytes `urllib.parse.quote` leaves unescaped with the default
`safe='/'`: ASCII alphanumerics, `_.-~`, and `/`. -/
def quoteSafe (b : Nat) : Bool :=
  (65 ≤ b && b ≤ 90) || (97 ≤ b && b ≤ 122) || (48 ≤ b && b ≤ 57) ||
    b == 95 || b == 46 || b == 45 || b == 126 || b == 47

/-- Upper-case hex digit of `d < 16`. -/
def hexDigit (d : Nat) : Char :=
  match d with
  | 0 => '0' | 1 => '1' | 2 => '2' | 3 => '3' | 4 => '4' | 5 => '5' | 6 => '6' | 7 => '7'
  | 8 => '8' | 9 => '9' | 10 => 'A' | 11 => 'B' | 12 => 'C' | 13 => 'D' | 14 => 'E' | _ => 'F'

/-- `urllib.parse.quote(s)`: UTF-8 encode, percent-escape unsafe bytes. -/
def pyQuote (s : String) : String :=
  ⟨(utf8Str s).foldr
    (fun b acc => if quoteSafe b then Char.ofNat b :: acc else '%' :: hexDigit (b / 16) :: hexDigit (b % 16) :: acc)
    []⟩

/-- `os.path.basename` for the POSIX paths used here: the part after the
last `'/'`. -/
def baseName (path : String) : String :=
  ⟨(path.data.foldl (fun acc c => if c = '/' then [] else acc ++ [c]) [])⟩

/-- `BaseRangeResponse.common_headers(file_mtime, file_size)`.
`downloadName` is `self.download_name`, `mediaType` the resolved
`self.media_type`, `path` is `self.path` (for `self.file_name`).  Note the
code formats `last-modified` from `self.file_mtime` (the same value the
caller passes as `file_mtime`). -/
def common_headers (md5hex : String → String) (downloadName : Option String)
    (mediaType path : String) (mtime size : Nat) : List (String × String) :=
  [("accept-ranges", "bytes"),
   ("last-modified", formatdate mtime),
   ("etag", "\"" ++ generate_etag md5hex mtime size ++ "\"")] ++
  (if downloadName.isSome || mediaType == "application/octet-stream" then
    [("content-disposition",
      "attachment; filename*=utf-8''" ++ pyQuote (downloadName.getD (baseName path)))]
  else [])

/-! ## ASGI events and the response handlers -/

/-- An ASGI send event: `http.response.start` (status, raw headers) or
`http.response.body` (payload bytes, `more_body`). -/
inductive Event
  | start (status : Nat) (headers : List (String × String))
  | body (payload : List Nat) (more : Bool)
  deriving DecidableEq, Repr

/-- `self.headers[k] = v` on a `MutableHeaders`-like association list:
replace the existing entry for `k` or append a new one. -/
def headerSet (hs : List (String × String)) (k v : String) : List (String × String) :=
  if hs.any (fun p => p.1 == k) then hs.map (fun p => if p.1 == k then (k, v) else p)
  else hs ++ [(k, v)]

/-- The chunk buffers of `send_file` as `http.response.body` events. -/
def sendFileEvents (file : List Nat) (chunkSize s e : Nat) : List Event :=
  (send_file_bytes file chunkSize s e).map (fun b => .body b true)

/-- `BaseRangeResponse.handle_all`. -/
def handle_all (sho : Bool) (hs : List (String × String)) (mediaType : String)
    (size : Nat) (file : List Nat) (chunkSize : Nat) : List Event :=
  let hs := headerSet hs "content-range"
    ("bytes " ++ natString 0 ++ "-" ++ natString (size - 1) ++ "/" ++ natString size)
  let hs := headerSet hs "content-type" mediaType
  let hs := headerSet hs "content-length" (natString size)
  .start 200 hs ::
    (if sho then [.body [] false]
     else sendFileEvents file chunkSize 0 (size - 1) ++ [.body [] false])

/-- `BaseRangeResponse.handle_single_range`.  Note the transcription is
faithful to the source: when `send_header_only` holds, the function
returns after sending a single empty `http.response.body` event and never
sends `http.response.start`. -/
def handle_single_range (sho : Bool) (hs : List (String × String)) (mediaType : String)
    (size s e : Nat) (file : List Nat) (chunkSize : Nat) : List Event :=
  let hs := headerSet hs "content-range"
    ("bytes " ++ natString s ++ "-" ++ natString e ++ "/" ++ natString size)
  let hs := headerSet hs "content-type" mediaType
  let hs := headerSet hs "content-length" (natString (e + 1 - s))
  if sho then [.body [] false]
  else
    .start 206 hs :: sendFileEvents file chunkSize s e ++ [.body [] false]

/-- `BaseRangeResponse.handle_multiple_range` (with the random 13-char
`boundary` as a parameter). -/
def handle_multiple_range (sho : Bool) (hs : List (String × String)) (mediaType : String)
    (size : Nat) (boundary : String) (ranges : List (Nat × Nat)) (file : List Nat)
    (chunkSize : Nat) : List Event :=
  let ph := parse_multiple_header mediaType size ranges boundary
  let hs := headerSet hs "content-length" (natString ph.1)
  let hs := headerSet hs "content-type" ("multipart/byteranges; boundary=" ++ boundary)
  .start 206 hs ::
    (if sho then [.body [] false]
     else
      .body (latin1Bytes ph.2) true ::
        ranges.foldr
          (fun (r : Nat × Nat) acc =>
            .body (latin1Bytes (create_sub_header mediaType size r.1 r.2)) true ::
              sendFileEvents file chunkSize r.1 r.2 ++
              (.body (latin1Bytes ("\n--" ++ boundary ++ "\n")) true :: acc))
          [] ++
        [.body [] false])

/-! ## The top-level `call` -/

/-- The detail string of `RangeNotSatisfiableError`:
`json.dumps({"Content-Range": f"*/{max_size}"})`. -/
def jsonDetail (size : Nat) : String :=
  "\x7b\"Content-Range\": \"*/" ++ natString size ++ "\"\x7d"

/-- The `except (MalformedRangeHeaderError, RangeNotSatisfiableError)`
branch of `call`: both exceptions carry `headers = None`, and
`to_raw_headers(None)` iterates over `{}` and returns `[]`, so the start
event carries *no* headers; the body is the utf-8 encoded `detail`.  An
uncaught `ValueError` produces no response (`none`). -/
def errorEvents : RangeError → Option (List Event)
  | .malformed m => some [.start 400 [], .body (utf8Str m) false]
  | .notSatisfiable size => some [.start 416 [], .body (utf8Str (jsonDetail size)) false]
  | .valueError => none

/-- The header-extraction loop of `call`: the last entry for a key wins. -/
def extractHeader (name : String) (hs : List (String × String)) : String :=
  hs.foldl (fun acc p => if p.1 == name then p.2 else acc) ""

/-- Python `str.upper()` for the ASCII method strings involved. -/
def pyUpper (s : String) : String :=
  ⟨s.data.map (fun c => if 97 ≤ c.toNat ∧ c.toNat ≤ 122 then Char.ofNat (c.toNat - 32) else c)⟩

/-- The `else` branch of `call` after the If-Range gate: parse the Range
header and dispatch to the single- or multiple-range handler, or emit the
error response. -/
def range_branch (sho : Bool) (hs : List (String × String)) (mediaType : String)
    (size : Nat) (boundary : String) (file : List Nat) (chunkSize : Nat)
    (http_range : String) : Option (List Event) :=
  match parse_range http_range size with
  | .error err => errorEvents err
  | .ok ranges =>
    match ranges with
    | [r] => some (handle_single_range sho hs mediaType size r.1 r.2 file chunkSize)
    | _ => some (handle_multiple_range sho hs mediaType size boundary ranges file chunkSize)

/-- `BaseRangeResponse.call`: run `setup` (fold `common_headers` into the
response headers), read `range`/`if-range` from the request headers,
serve the full resource when there is no Range header or `check_if_range`
accepts the If-Range validator, and otherwise process the Range header.
`hs0` is the initial `self.headers` content, `boundary` the random
multipart boundary.  The result is the emitted event trace, or `none`
when an uncaught exception escapes. -/
def call_model (md5hex : String → String) (method : String)
    (reqHeaders : List (String × String)) (path : String) (downloadName : Option String)
    (mediaType : String) (mtime size : Nat) (file : List Nat) (chunkSize : Nat)
    (boundary : String) (hs0 : List (String × String)) : Option (List Event) :=
  let hs1 := (common_headers md5hex downloadName mediaType path mtime size).foldl
    (fun h p => headerSet h p.1 p.2) hs0
  let sho := pyUpper method == "HEAD"
  let http_range := extractHeader "range" reqHeaders
  let http_if_range := extractHeader "if-range" reqHeaders
  if http_range = "" ∨ (http_if_range ≠ "" ∧ check_if_range md5hex http_if_range mtime size) then
    some (handle_all sho hs1 mediaType size file chunkSize)
  else
    range_branch sho hs1 mediaType size boundary file chunkSize http_range

/-- The concatenated body bytes of an event trace. -/
def bodyOfEvents (evs : List Event) : List Nat :=
  evs.foldr (fun ev acc => match ev with | .body b _ => b ++ acc | .start _ _ => acc) []

/-- Whether a trace contains an `http.response.start` event. -/
def hasStartEvent (evs : List Event) : Bool :=
  evs.any (fun ev => match ev with | .start _ _ => true | .body _ _ => false)

/-- The status of the first `http.response.start` event of a response,
if any. -/
def respStatus (r : Option (List Event)) : Option Nat :=
  match r with
  | none => none
  | some evs => evs.findSome? (fun ev => match ev with | .start st _ => some st | .body _ _ => none)

/-- The headers of the first `http.response.start` event, if any. -/
def respHeaders (r : Option (List Event)) : Option (List (String × String)) :=
  match r with
  | none => none
  | some evs => evs.findSome? (fun ev => match ev with | .start _ h => some h | .body _ _ => none)

/-! ## Spec-side input constructors (decimal renderings of range lists) -/

/-- The canonical rendering `<start>-<end>` of one range item. -/
def renderRange (r : Nat × Nat) : List Char :=
  natChars r.1 ++ '-' :: natChars r.2

/-- The canonical comma-separated rendering of a non-empty range list. -/
def renderRanges : List (Nat × Nat) → List Char
  | [] => []
  | [r] => renderRange r
  | r :: s :: rest => renderRange r ++ ',' :: renderRanges (s :: rest)

/-- A `Range` header holding the valid items `P`, then an item whose
start is `s`, then arbitrary further text. -/
def offendingHeader (P : List (Nat × Nat)) (s e : Nat) (tailS : String) : String :=
  "bytes=" ++
    (match P with
     | [] => ("" : String)
     | _ => (⟨renderRanges P⟩ : String) ++ ",") ++
    natString s ++ "-" ++ natString e ++ tailS

/-! ## Item classification (the case analysis of the `parse_range` loop) -/

/-- What the `parse_range` loop does with one `(start, end)` capture pair:
skip it, raise one of the three errors, or accept a range. -/
inductive ItemClass
  | skip
  | accept (r : Nat × Nat)
  | verr
  | notsat
  | malf
  deriving DecidableEq, Repr

/-- Classification of a single capture pair against `size`, mirroring the
loop body of `parse_range`. -/
def classifyItem (size : Nat) (it : List Char × List Char) : ItemClass :=
  if it.1 = [] ∧ it.2 = [] then .skip
  else if it.1 = [] then .verr
  else
    let s := strToNat it.1
    let e := if it.2 = [] then size - 1 else strToNat it.2
    if ¬ s < size then .notsat
    else
      let e2 := if size ≤ e then size - 1 else e
      if s > e2 then .malf
      else .accept (s, e2)

/-- Whether a classification is one of the three raised errors. -/
def isErrClass : ItemClass → Bool
  | .verr | .notsat | .malf => true
  | .skip | .accept _ => false

/-- The error corresponding to an erroneous classification. -/
def errOfClass (size : Nat) : ItemClass → RangeError
  | .verr => .valueError
  | .notsat => .notSatisfiable size
  | _ => .malformed "Range header: start must be less than end"

/-- The accepted range of an `accept` classification. -/
def acceptOf (size : Nat) (it : List Char × List Char) : Option (Nat × Nat) :=
  match classifyItem size it with
  | .accept r => some r
  | _ => none

end FastapiRange

namespace FastapiRange

/-! ## Lemmas: decimal strings -/

theorem isDigitCh_digitChar (d : Nat) : isDigitCh (digitChar d) = true := by
  unfold digitChar
  split <;> decide

theorem toNat_digitChar {d : Nat} (h : d < 10) : (digitChar d).toNat = 48 + d := by
  interval_cases d <;> decide

theorem natCharsF_digits (fuel n : Nat) : ∀ c ∈ natCharsF fuel n, isDigitCh c = true := by
  induction fuel generalizing n with
  | zero => intro c hc; simp [natCharsF] at hc
  | succ fuel ih =>
    intro c hc
    unfold natCharsF at hc
    split at hc
    · simp at hc
      subst hc
      exact isDigitCh_digitChar n
    · rcases List.mem_append.mp hc with h | h
      · exact ih _ c h
      · simp at h
        subst h
        exact isDigitCh_digitChar (n % 10)

theorem natCharsF_ne_nil (fuel n : Nat) : natCharsF (fuel + 1) n ≠ [] := by
  unfold natCharsF
  split
  · simp
  · simp

theorem natChars_digits (n : Nat) : ∀ c ∈ natChars n, isDigitCh c = true :=
  natCharsF_digits (n + 1) n

theorem natChars_ne_nil (n : Nat) : natChars n ≠ [] := natCharsF_ne_nil n n

theorem strToNat_append_digit (xs : List Char) (c : Char) :
    strToNat (xs ++ [c]) = strToNat xs * 10 + (c.toNat - 48) := by
  unfold strToNat
  rw [List.foldl_append]
  rfl

theorem strToNat_natCharsF (fuel n : Nat) (h : n < 10 ^ fuel) :
    strToNat (natCharsF fuel n) = n := by
  induction fuel generalizing n with
  | zero =>
    have : n = 0 := by simpa using h
    subst this
    rfl
  | succ fuel ih =>
    unfold natCharsF
    split
    · rename_i h10
      show 0 * 10 + ((digitChar n).toNat - 48) = n
      rw [toNat_digitChar h10]
      omega
    · rename_i h10
      rw [strToNat_append_digit, ih (n / 10) ?_, toNat_digitChar (Nat.mod_lt n (by omega))]
      · omega
      · rw [Nat.div_lt_iff_lt_mul (by omega)]
        rw [pow_succ] at h
        exact h

theorem strToNat_natChars (n : Nat) : strToNat (natChars n) = n := by
  apply strToNat_natCharsF
  calc n < 10 ^ n := Nat.lt_pow_self (by omega) n
    _ ≤ 10 ^ (n + 1) := Nat.pow_le_pow_right (by omega) (by omega)

/-! ## Lemmas: takeWhile / dropWhile over digit prefixes -/

theorem takeWhile_digits_append {ds : List Char} (h : ∀ c ∈ ds, isDigitCh c = true)
    (t : List Char) : (ds ++ t).takeWhile isDigitCh = ds ++ t.takeWhile isDigitCh := by
  induction ds with
  | nil => simp
  | cons c ds ih =>
    have hc : isDigitCh c = true := h c (by simp)
    simp only [List.cons_append, List.takeWhile_cons, hc, if_true]
    rw [ih (fun x hx => h x (by simp [hx]))]

theorem dropWhile_digits_append {ds : List Char} (h : ∀ c ∈ ds, isDigitCh c = true)
    (t : List Char) : (ds ++ t).dropWhile isDigitCh = t.dropWhile isDigitCh := by
  induction ds with
  | nil => simp
  | cons c ds ih =>
    have hc : isDigitCh c = true := h c (by simp)
    simp only [List.cons_append, List.dropWhile_cons, hc, if_true]
    exact ih (fun x hx => h x (by simp [hx]))

theorem length_dropWhile_le (p : Char → Bool) (l : List Char) :
    (l.dropWhile p).length ≤ l.length := by
  induction l with
  | nil => simp
  | cons c l ih =>
    rw [List.dropWhile_cons]
    split
    · exact Nat.le_succ_of_le ih
    · simp

/-! ## Lemmas: `findall` -/

theorem tryMatch_digits_dash {ds : List Char} (h : ∀ c ∈ ds, isDigitCh c = true)
    (rest : List Char) :
    tryMatch (ds ++ '-' :: rest) =
      some (ds, rest.takeWhile isDigitCh, rest.dropWhile isDigitCh) := by
  unfold tryMatch
  rw [dropWhile_digits_append h, takeWhile_digits_append h]
  simp [List.dropWhile_cons, List.takeWhile_cons, isDigitCh]

theorem tryMatch_none {c : Char} (hd : isDigitCh c = false) (hm : c ≠ '-') (s : List Char) :
    tryMatch (c :: s) = none := by
  unfold tryMatch
  rw [List.dropWhile_cons, if_neg (by simp [hd])]
  split
  · rename_i r2 heq
    simp only [List.cons.injEq] at heq
    exact absurd heq.1 hm
  · rfl

theorem tryMatch_length {s d1 d2 after : List Char}
    (h : tryMatch s = some (d1, d2, after)) : after.length < s.length := by
  unfold tryMatch at h
  rcases hdw : s.dropWhile isDigitCh with _ | ⟨c, r2⟩
  · rw [hdw] at h
    simp at h
  · rw [hdw] at h
    by_cases hc : c = '-'
    · subst hc
      simp only [Option.some.injEq, Prod.mk.injEq] at h
      have h2 : after = r2.dropWhile isDigitCh := h.2.2.symm
      have l1 : r2.length + 1 ≤ s.length := by
        have := length_dropWhile_le isDigitCh s
        rw [hdw] at this
        simpa using this
      have l2 : (r2.dropWhile isDigitCh).length ≤ r2.length := length_dropWhile_le _ _
      subst h2
      omega
    · exfalso
      revert h
      split
      · rename_i r2' heq
        simp only [List.cons.injEq] at heq
        exact absurd heq.1 hc
      · simp

theorem findallF_mono (f1 : Nat) : ∀ (f2 : Nat) (s : List Char),
    s.length ≤ f1 → s.length ≤ f2 → findallF f1 s = findallF f2 s := by
  induction f1 with
  | zero =>
    intro f2 s h1 _
    have : s = [] := List.length_eq_zero.mp (Nat.le_zero.mp h1)
    subst this
    cases f2 <;> rfl
  | succ f1 ih =>
    intro f2 s h1 h2
    cases s with
    | nil => cases f2 <;> rfl
    | cons c rest =>
      cases f2 with
      | zero => simp at h2
      | succ f2 =>
        simp only [List.length_cons, Nat.succ_le_succ_iff] at h1 h2
        show findallF (f1 + 1) (c :: rest) = findallF (f2 + 1) (c :: rest)
        unfold findallF
        rcases htm : tryMatch (c :: rest) with _ | ⟨d1, d2, after⟩
        · simp only
          exact ih f2 rest h1 h2
        · simp only
          have hlen := tryMatch_length htm
          simp only [List.length_cons] at hlen
          rw [ih f2 after (by omega) (by omega)]

theorem findall_step_match {c : Char} {rest d1 d2 after : List Char}
    (h : tryMatch (c :: rest) = some (d1, d2, after)) :
    findall (c :: rest) = (d1, d2) :: findall after := by
  have hlen := tryMatch_length h
  simp only [List.length_cons] at hlen
  have hmono : findallF rest.length after = findall after :=
    findallF_mono rest.length after.length after (by omega) (le_refl _)
  show findallF (rest.length + 1) (c :: rest) = (d1, d2) :: findall after
  unfold findallF
  rw [h, ← hmono]

theorem findall_step_skip {c : Char} {rest : List Char}
    (h : tryMatch (c :: rest) = none) : findall (c :: rest) = findall rest := by
  show findallF (rest.length + 1) (c :: rest) = findall rest
  unfold findallF
  rw [h]
  rfl

theorem findall_digits_dash {ds : List Char} (h : ∀ c ∈ ds, isDigitCh c = true)
    (rest : List Char) :
    findall (ds ++ '-' :: rest) =
      (ds, rest.takeWhile isDigitCh) :: findall (rest.dropWhile isDigitCh) := by
  have htm := tryMatch_digits_dash h rest
  match ds, htm with
  | [], htm => exact findall_step_match htm
  | d :: ds', htm => exact findall_step_match htm

theorem findall_comma_skip (s : List Char) : findall (',' :: s) = findall s :=
  findall_step_skip (tryMatch_none (by decide) (by decide) s)

/-! ## Lemmas: `findall` on rendered range lists -/

/-- The capture pair produced by one rendered item. -/
theorem findall_renderRange_comma (r : Nat × Nat) (t : List Char) :
    findall (renderRange r ++ ',' :: t) = (natChars r.1, natChars r.2) :: findall t := by
  unfold renderRange
  rw [List.append_assoc, List.cons_append,
    findall_digits_dash (natChars_digits r.1) (natChars r.2 ++ ',' :: t),
    takeWhile_digits_append (natChars_digits r.2), dropWhile_digits_append (natChars_digits r.2),
    List.takeWhile_cons, List.dropWhile_cons, if_neg (by decide), if_neg (by decide),
    findall_comma_skip]
  simp

theorem findall_renderRange (r : Nat × Nat) :
    findall (renderRange r) = [(natChars r.1, natChars r.2)] := by
  unfold renderRange
  rw [findall_digits_dash (natChars_digits r.1) (natChars r.2),
    List.takeWhile_eq_self_iff.mpr (natChars_digits r.2),
    List.dropWhile_eq_nil_iff.mpr ?_]
  · rfl
  · intro x hx
    exact natChars_digits r.2 x hx

theorem findall_renderRanges_comma (L : List (Nat × Nat)) (hL : L ≠ []) (t : List Char) :
    findall (renderRanges L ++ ',' :: t) =
      L.map (fun r => (natChars r.1, natChars r.2)) ++ findall t := by
  induction L with
  | nil => exact absurd rfl hL
  | cons r L ih =>
    cases L with
    | nil =>
      show findall (renderRange r ++ ',' :: t) = _
      rw [findall_renderRange_comma]
      rfl
    | cons s rest =>
      show findall ((renderRange r ++ ',' :: renderRanges (s :: rest)) ++ ',' :: t) = _
      rw [List.append_assoc, List.cons_append, findall_renderRange_comma,
        ih (by simp)]
      rfl

theorem findall_renderRanges (L : List (Nat × Nat)) (hL : L ≠ []) :
    findall (renderRanges L) = L.map (fun r => (natChars r.1, natChars r.2)) := by
  induction L with
  | nil => exact absurd rfl hL
  | cons r L ih =>
    cases L with
    | nil =>
      show findall (renderRange r) = _
      rw [findall_renderRange]
      rfl
    | cons s rest =>
      show findall (renderRange r ++ ',' :: renderRanges (s :: rest)) = _
      rw [findall_renderRange_comma, ih (by simp)]
      rfl

/-! ## Lemmas: `parseItems` -/

/-- The capture pair of a validated range is accepted and processing
continues. -/
theorem parseItems_accept (size : Nat) (r : Nat × Nat) (hr : r.1 ≤ r.2 ∧ r.2 < size)
    (rest : List (List Char × List Char)) (acc : List (Nat × Nat)) :
    parseItems size ((natChars r.1, natChars r.2) :: rest) acc =
      parseItems size rest (acc ++ [r]) := by
  obtain ⟨h12, h2s⟩ := hr
  have h1 : natChars r.1 ≠ [] := natChars_ne_nil r.1
  have h2 : natChars r.2 ≠ [] := natChars_ne_nil r.2
  have hlt : r.1 < size := by omega
  have hsz : ¬ size ≤ r.2 := by omega
  have hgt : ¬ r.1 > r.2 := by omega
  conv_lhs => unfold parseItems
  simp [h1, h2, strToNat_natChars, hlt, hsz, hgt]

/-- A rendered list of validated ranges is accepted item by item. -/
theorem parseItems_valid_prefix (size : Nat) (L : List (Nat × Nat))
    (hL : ∀ r ∈ L, r.1 ≤ r.2 ∧ r.2 < size) (rest : List (List Char × List Char))
    (acc : List (Nat × Nat)) :
    parseItems size (L.map (fun r => (natChars r.1, natChars r.2)) ++ rest) acc =
      parseItems size rest (acc ++ L) := by
  induction L generalizing acc with
  | nil => simp
  | cons r L ih =>
    rw [List.map_cons, List.cons_append,
      parseItems_accept size r (hL r (by simp)) _ acc,
      ih (fun x hx => hL x (by simp [hx])) (acc ++ [r])]
    simp

/-- An item whose start is out of bounds raises `RangeNotSatisfiableError`
at once, whatever follows. -/
theorem parseItems_notsat (size : Nat) (ds de : List Char) (hds : ds ≠ [])
    (hge : size ≤ strToNat ds) (rest : List (List Char × List Char))
    (acc : List (Nat × Nat)) :
    parseItems size ((ds, de) :: rest) acc = .error (.notSatisfiable size) := by
  conv_lhs => unfold parseItems
  rw [if_neg (by simp [hds]), if_neg hds, if_pos (by omega)]

/-! ## Lemmas: `splitEqF` on `bytes=` headers -/

theorem splitEqF_bytes (t : List Char) :
    splitEqF ("bytes=".data ++ t) = some ("bytes".data, t) := rfl

/-! ## `parse_range` on whole headers -/

theorem findall_nil : findall [] = [] := rfl

theorem parse_range_bytes (t : List Char) (size : Nat) :
    parse_range (⟨"bytes=".data ++ t⟩ : String) size =
      match parseItems size (findall t) [] with
      | .error e => .error e
      | .ok ranges =>
        if ranges.length = 0 then .error (.malformed "Range header: range must be requested")
        else .ok ranges := by
  unfold parse_range
  rw [show (⟨"bytes=".data ++ t⟩ : String).data = "bytes=".data ++ t from rfl, splitEqF_bytes]
  rfl

theorem parse_range_split_some {line : String} {u r : List Char}
    (h : splitEqF line.data = some (u, r)) (size : Nat) :
    parse_range line size =
      if u = "bytes".data then
        match parseItems size (findall r) [] with
        | .error e => .error e
        | .ok ranges =>
          if ranges.length = 0 then .error (.malformed "Range header: range must be requested")
          else .ok ranges
      else .error (.malformed "Only support bytes range") := by
  unfold parse_range
  rw [h]

theorem parse_range_bytes_error {t : List Char} {size : Nat} {err : RangeError}
    (h : parseItems size (findall t) [] = .error err) :
    parse_range (⟨"bytes=".data ++ t⟩ : String) size = .error err := by
  rw [parse_range_bytes, h]

theorem parse_range_bytes_ok {t : List Char} {size : Nat} {L : List (Nat × Nat)}
    (h : parseItems size (findall t) [] = .ok L) (hL : L ≠ []) :
    parse_range (⟨"bytes=".data ++ t⟩ : String) size = .ok L := by
  rw [parse_range_bytes, h]
  simp [List.length_eq_zero, hL]

theorem parseItems_valid (size : Nat) (L : List (Nat × Nat))
    (hL : ∀ r ∈ L, r.1 ≤ r.2 ∧ r.2 < size) (acc : List (Nat × Nat)) :
    parseItems size (L.map (fun r => (natChars r.1, natChars r.2))) acc = .ok (acc ++ L) := by
  rw [← List.append_nil (L.map fun r => (natChars r.1, natChars r.2)),
    parseItems_valid_prefix size L hL [] acc]
  rfl

/-- Parsing the canonical rendering of a non-empty valid range list
returns exactly that list. -/
theorem parse_range_renderRanges (size : Nat) (L : List (Nat × Nat)) (hL : L ≠ [])
    (hv : ∀ r ∈ L, r.1 ≤ r.2 ∧ r.2 < size) :
    parse_range ("bytes=" ++ (⟨renderRanges L⟩ : String)) size = .ok L := by
  rw [show ("bytes=" ++ (⟨renderRanges L⟩ : String))
      = (⟨"bytes=".data ++ renderRanges L⟩ : String) from String.ext (String.data_append _ _)]
  apply parse_range_bytes_ok ?_ hL
  rw [findall_renderRanges L hL]
  exact parseItems_valid size L hv []

end FastapiRange

namespace FastapiRange

/-- C7: for `0 ≤ start ≤ end < size`, `bytes=<start>-<end>` parses to
exactly `[(start, end)]`; `bytes=<start>-` parses to `[(start, size-1)]`;
and a multi-item header parses to its items in header order, unmerged,
unsorted and undeduplicated (duplicates and overlaps included, as the
third conjunct's arbitrary valid list shows). -/
theorem parse_range_single_open_and_ordered :
    (∀ size s e : Nat, s ≤ e → e < size →
      parse_range ("bytes=" ++ natString s ++ "-" ++ natString e) size = .ok [(s, e)]) ∧
    (∀ size s : Nat, s < size →
      parse_range ("bytes=" ++ natString s ++ "-") size = .ok [(s, size - 1)]) ∧
    (∀ (size : Nat) (L : List (Nat × Nat)), L ≠ [] → (∀ r ∈ L, r.1 ≤ r.2 ∧ r.2 < size) →
      parse_range ("bytes=" ++ (⟨renderRanges L⟩ : String)) size = .ok L) := by
  refine ⟨?_, ?_, fun size L hL hv => parse_range_renderRanges size L hL hv⟩
  · intro size s e hse hes
    have hstr : "bytes=" ++ natString s ++ "-" ++ natString e
        = "bytes=" ++ (⟨renderRanges [(s, e)]⟩ : String) := by
      apply String.ext
      simp [String.data_append, natString, renderRanges, renderRange]
    rw [hstr]
    exact parse_range_renderRanges size [(s, e)] (by simp) (by simp [hse, hes])
  · intro size s hs
    rw [show ("bytes=" ++ natString s ++ "-")
        = (⟨"bytes=".data ++ (natChars s ++ '-' :: [])⟩ : String) from by
      apply String.ext
      simp [String.data_append, natString]]
    apply parse_range_bytes_ok ?_ (by simp)
    rw [findall_digits_dash (natChars_digits s) []]
    have h1 : natChars s ≠ [] := natChars_ne_nil s
    conv_lhs => unfold parseItems
    simp [parseItems, findall_nil, h1, strToNat_natChars, hs, ite_self,
      show ¬ s > size - 1 from by omega]

/-- C7 witness: concrete instances of the three conjuncts, including a
duplicated item that is passed through untouched. -/
theorem parse_range_single_open_and_ordered_witness :
    parse_range ("bytes=" ++ natString 2 ++ "-" ++ natString 5) 10 = .ok [(2, 5)] ∧
    parse_range ("bytes=" ++ natString 3 ++ "-") 10 = .ok [(3, 9)] ∧
    parse_range ("bytes=" ++ (⟨renderRanges [(4, 6), (0, 1), (4, 6)]⟩ : String)) 10
      = .ok [(4, 6), (0, 1), (4, 6)] :=
  ⟨parse_range_single_open_and_ordered.1 10 2 5 (by decide) (by decide),
   parse_range_single_open_and_ordered.2.1 10 3 (by decide),
   parse_range_single_open_and_ordered.2.2 10 [(4, 6), (0, 1), (4, 6)] (by decide) (by decide)⟩

/-- C6: when the `parse_range` loop reaches an item whose start is not
below the resource size — any number of valid items before it, anything
at all after it — it raises `RangeNotSatisfiableError` carrying the
resource size immediately; later items (valid or not) are never looked
at, since `tailS` is unconstrained. -/
theorem parse_range_notsat_first_offending (size : Nat) (P : List (Nat × Nat)) (s e : Nat)
    (tailS : String) (hP : ∀ r ∈ P, r.1 ≤ r.2 ∧ r.2 < size) (hs : size ≤ s) :
    parse_range (offendingHeader P s e tailS) size = .error (.notSatisfiable size) := by
  have h1 : natChars s ≠ [] := natChars_ne_nil s
  have hstn : size ≤ strToNat (natChars s) := by rw [strToNat_natChars]; exact hs
  cases P with
  | nil =>
    rw [show offendingHeader [] s e tailS
        = (⟨"bytes=".data ++ (natChars s ++ '-' :: (natChars e ++ tailS.data))⟩ : String) from by
      apply String.ext
      simp [offendingHeader, String.data_append, natString]]
    apply parse_range_bytes_error
    rw [findall_digits_dash (natChars_digits s) (natChars e ++ tailS.data),
      parseItems_notsat size _ _ h1 hstn]
  | cons p P' =>
    rw [show offendingHeader (p :: P') s e tailS
        = (⟨"bytes=".data ++ (renderRanges (p :: P') ++ ',' ::
            (natChars s ++ '-' :: (natChars e ++ tailS.data)))⟩ : String) from by
      apply String.ext
      simp [offendingHeader, String.data_append, natString]]
    apply parse_range_bytes_error
    rw [findall_renderRanges_comma (p :: P') (by simp) _,
      findall_digits_dash (natChars_digits s) (natChars e ++ tailS.data),
      parseItems_valid_prefix size (p :: P') hP _ [],
      parseItems_notsat size _ _ h1 hstn]

/-- C6 witness: a valid item before and a valid item after the offending
one; the error still carries the size and wins. -/
theorem parse_range_notsat_first_offending_witness :
    parse_range (offendingHeader [(0, 1)] 20 30 ",2-3") 10 = .error (.notSatisfiable 10) :=
  parse_range_notsat_first_offending 10 [(0, 1)] 20 30 ",2-3" (by decide) (by decide)

/-- C4 (amended): a `Range` header whose first item is suffix-form
(`-N`) does not collapse to `MalformedRangeHeaderError`: the regex
produces the capture pair `('', digits)`, and `int('')` raises an
uncaught `ValueError` — whatever follows the item. -/
theorem parse_range_suffix_value_error (n size : Nat) (tailS : String) :
    parse_range ("bytes=-" ++ natString n ++ tailS) size = .error .valueError := by
  rw [show ("bytes=-" ++ natString n ++ tailS)
      = (⟨"bytes=".data ++ ('-' :: (natChars n ++ tailS.data))⟩ : String) from by
    apply String.ext
    simp [String.data_append, natString]]
  apply parse_range_bytes_error
  rw [show ('-' :: (natChars n ++ tailS.data)) = [] ++ '-' :: (natChars n ++ tailS.data) from rfl,
    findall_digits_dash (by simp) (natChars n ++ tailS.data),
    takeWhile_digits_append (natChars_digits n)]
  have hde : natChars n ++ (tailS.data.takeWhile isDigitCh) ≠ [] := by
    simp [natChars_ne_nil n]
  conv_lhs => unfold parseItems
  rw [if_neg (by simp [hde]), if_pos rfl]

/-! ## The classification view of `parseItems` (for C8) -/

/-- `parseItems` is determined by the per-item classification: the first
erroneous item (in header order) fixes the raised error; with no
erroneous item the accepted ranges are appended in order. -/
theorem parseItems_find (size : Nat) (items : List (List Char × List Char))
    (acc : List (Nat × Nat)) :
    parseItems size items acc =
      match (items.map (classifyItem size)).find? isErrClass with
      | some c => .error (errOfClass size c)
      | none => .ok (acc ++ items.filterMap (acceptOf size)) := by
  induction items generalizing acc with
  | nil => simp [parseItems]
  | cons it rest ih =>
    rcases it with ⟨ds, de⟩
    by_cases hb : ds = [] ∧ de = []
    · have hcl : classifyItem size (ds, de) = .skip := by simp [classifyItem, hb]
      conv_lhs => unfold parseItems
      rw [if_pos hb, ih acc]
      simp [hcl, List.find?_cons, isErrClass, acceptOf, List.filterMap_cons]
    · by_cases hds : ds = []
      · have hde : de ≠ [] := fun h => hb ⟨hds, h⟩
        have hcl : classifyItem size (ds, de) = .verr := by simp [classifyItem, hds, hde]
        conv_lhs => unfold parseItems
        rw [if_neg hb, if_pos hds]
        simp [hcl, List.find?_cons, isErrClass, errOfClass]
      · by_cases hlt : strToNat ds < size
        · by_cases hgt : strToNat ds >
            (if size ≤ (if de = [] then size - 1 else strToNat de) then size - 1
             else (if de = [] then size - 1 else strToNat de))
          · have hcl : classifyItem size (ds, de) = .malf := by
              simp only [classifyItem]
              rw [if_neg hb, if_neg hds, if_neg (by omega), if_pos hgt]
            conv_lhs => unfold parseItems
            rw [if_neg hb, if_neg hds, if_neg (by omega), if_pos hgt]
            simp [hcl, List.find?_cons, isErrClass, errOfClass]
          · have hcl : classifyItem size (ds, de) =
                .accept (strToNat ds,
                  if size ≤ (if de = [] then size - 1 else strToNat de) then size - 1
                  else (if de = [] then size - 1 else strToNat de)) := by
              simp only [classifyItem]
              rw [if_neg hb, if_neg hds, if_neg (by omega), if_neg hgt]
            conv_lhs => unfold parseItems
            rw [if_neg hb, if_neg hds, if_neg (by omega), if_neg hgt, ih]
            simp [hcl, List.find?_cons, isErrClass, acceptOf, List.filterMap_cons]
        · have hcl : classifyItem size (ds, de) = .notsat := by
            simp only [classifyItem]
            rw [if_neg hb, if_neg hds, if_pos (by omega)]
          conv_lhs => unfold parseItems
          rw [if_neg hb, if_neg hds, if_pos (by omega)]
          simp [hcl, List.find?_cons, isErrClass, errOfClass]

/-- With no erroneous item, zero ranges are accepted exactly when every
item is skipped. -/
theorem filterMap_acceptOf_eq_nil (size : Nat) (items : List (List Char × List Char))
    (hno : (items.map (classifyItem size)).find? isErrClass = none) :
    items.filterMap (acceptOf size) = [] ↔ ∀ it ∈ items, classifyItem size it = .skip := by
  induction items with
  | nil => simp
  | cons it rest ih =>
    rw [List.map_cons, List.find?_cons] at hno
    rcases hhead : isErrClass (classifyItem size it) with _ | _
    · rw [hhead] at hno
      simp only at hno
      rcases hcl : classifyItem size it with _ | r | _ | _ | _ <;>
        simp [hcl, List.filterMap_cons, acceptOf, ih hno] <;>
        simp [hcl, isErrClass] at hhead
    · rw [hhead] at hno
      simp at hno

end FastapiRange

namespace FastapiRange

/-- C8: `parse_range` raises `MalformedRangeHeaderError` exactly when the
header has no `=` (the unpacking `ValueError`), or its unit is not
exactly `bytes`, or the first erroneous item of the `(\d*)-(\d*)` capture
list is one with `start > end` after clamping `end` to `size - 1`, or no
item is erroneous and every item is skipped (zero accepted ranges). -/
theorem parse_range_malformed_iff (line : String) (size : Nat) :
    isMalformedResult (parse_range line size) = true ↔
      (splitEqF line.data = none ∨
       ∃ u r, splitEqF line.data = some (u, r) ∧
         (u ≠ "bytes".data ∨
          (((findall r).map (classifyItem size)).find? isErrClass = some .malf ∨
           (((findall r).map (classifyItem size)).find? isErrClass = none ∧
            ∀ it ∈ findall r, classifyItem size it = .skip)))) := by
  rcases hsplit : splitEqF line.data with _ | ⟨u, r⟩
  · unfold parse_range
    rw [hsplit]
    simp [isMalformedResult, hsplit]
  · have hiff :
        ((some (u, r) : Option (List Char × List Char)) = none ∨
         ∃ u' r', (some (u, r) : Option (List Char × List Char)) = some (u', r') ∧
           (u' ≠ "bytes".data ∨
            (((findall r').map (classifyItem size)).find? isErrClass = some .malf ∨
             (((findall r').map (classifyItem size)).find? isErrClass = none ∧
              ∀ it ∈ findall r', classifyItem size it = .skip)))) ↔
        (u ≠ "bytes".data ∨
         (((findall r).map (classifyItem size)).find? isErrClass = some .malf ∨
          (((findall r).map (classifyItem size)).find? isErrClass = none ∧
           ∀ it ∈ findall r, classifyItem size it = .skip))) := by
      constructor
      · rintro (h | ⟨u', r', heq, hp⟩)
        · cases h
        · obtain ⟨h1, h2⟩ : u = u' ∧ r = r' := by simpa using heq
          subst h1
          subst h2
          exact hp
      · intro hp
        exact Or.inr ⟨u, r, rfl, hp⟩
    rw [hiff]
    rw [parse_range_split_some hsplit size]
    by_cases hu : u = "bytes".data
    · rw [if_pos hu]
      rw [parseItems_find size (findall r) []]
      rcases hf : ((findall r).map (classifyItem size)).find? isErrClass with _ | c
      · show isMalformedResult
          (if (([] : List (Nat × Nat)) ++ (findall r).filterMap (acceptOf size)).length = 0
           then .error (.malformed "Range header: range must be requested")
           else .ok ([] ++ (findall r).filterMap (acceptOf size))) = true ↔ _
        by_cases hz : (findall r).filterMap (acceptOf size) = []
        · rw [if_pos (by simp [hz])]
          constructor
          · intro _
            exact Or.inr (Or.inr ⟨rfl, (filterMap_acceptOf_eq_nil size _ hf).mp hz⟩)
          · intro _
            rfl
        · rw [if_neg (by simp [List.length_eq_zero, hz])]
          constructor
          · intro hmal
            simp [isMalformedResult] at hmal
          · rintro (h | h | ⟨-, hall⟩)
            · exact absurd hu h
            · exact absurd h (by decide)
            · exact absurd ((filterMap_acceptOf_eq_nil size _ hf).mpr hall) hz
      · have hcerr : isErrClass c = true := List.find?_some hf
        cases c with
        | skip => simp [isErrClass] at hcerr
        | accept rr => simp [isErrClass] at hcerr
        | verr =>
          constructor
          · intro hmal
            simp [isMalformedResult, errOfClass] at hmal
          · rintro (h | h | ⟨h, -⟩)
            · exact absurd hu h
            · exact absurd h (by decide)
            · exact absurd h (by decide)
        | notsat =>
          constructor
          · intro hmal
            simp [isMalformedResult, errOfClass] at hmal
          · rintro (h | h | ⟨h, -⟩)
            · exact absurd hu h
            · exact absurd h (by decide)
            · exact absurd h (by decide)
        | malf =>
          constructor
          · intro _
            exact Or.inr (Or.inl rfl)
          · intro _
            rfl
    · rw [if_neg hu]
      constructor
      · intro _
        exact Or.inl hu
      · intro _
        rfl

/-! ## Lemmas: `formatdate` and the quoted ETag (for C9/C10) -/

theorem dayName_head (w : Nat) : ∃ c t, (dayName w).data = c :: t ∧ c ≠ '"' := by
  unfold dayName
  split
  · exact ⟨'M', ['o', 'n'], rfl, by decide⟩
  · exact ⟨'T', ['u', 'e'], rfl, by decide⟩
  · exact ⟨'W', ['e', 'd'], rfl, by decide⟩
  · exact ⟨'T', ['h', 'u'], rfl, by decide⟩
  · exact ⟨'F', ['r', 'i'], rfl, by decide⟩
  · exact ⟨'S', ['a', 't'], rfl, by decide⟩
  · exact ⟨'S', ['u', 'n'], rfl, by decide⟩

/-- Appending on the right preserves the head character. -/
theorem head_append {X : String} {c : Char} (h : ∃ tl, X.data = c :: tl) (Y : String) :
    ∃ tl, (X ++ Y).data = c :: tl := by
  obtain ⟨tl, htl⟩ := h
  refine ⟨tl ++ Y.data, ?_⟩
  rw [String.data_append, htl]
  rfl

theorem formatdate_head (t : Nat) : ∃ c r, (formatdate t).data = c :: r ∧ c ≠ '"' := by
  obtain ⟨c, tl, hd, hc⟩ := dayName_head ((t / 86400 + 3) % 7)
  suffices h : ∃ r, (formatdate t).data = c :: r by
    obtain ⟨r, hr⟩ := h
    exact ⟨c, r, hr, hc⟩
  have h0 : ∃ tl, (dayName ((t / 86400 + 3) % 7)).data = c :: tl := ⟨tl, hd⟩
  exact head_append (head_append (head_append (head_append (head_append (head_append
    (head_append (head_append (head_append (head_append (head_append (head_append
      (head_append h0 _) _) _) _) _) _) _) _) _) _) _) _) _

theorem quoted_ne_self (g : String) : "\"" ++ g ++ "\"" ≠ g := by
  intro h
  have hlen := congrArg String.length h
  rw [String.length_append, String.length_append,
    show ("\"" : String).length = 1 from rfl] at hlen
  omega

theorem quoted_ne_formatdate (g : String) (t : Nat) : "\"" ++ g ++ "\"" ≠ formatdate t := by
  intro h
  obtain ⟨c, r, hd, hc⟩ := formatdate_head t
  have hdata := congrArg String.data h
  rw [show ("\"" ++ g ++ "\"").data = '"' :: (g.data ++ ['"']) from by
    simp [String.data_append], hd] at hdata
  injection hdata with h1 _
  exact hc h1.symm

theorem check_if_range_iff (md5hex : String → String) (ifr : String) (mtime size : Nat) :
    check_if_range md5hex ifr mtime size = true ↔
      (ifr = generate_etag md5hex mtime size ∨ ifr = formatdate mtime) := by
  unfold check_if_range
  rw [Bool.or_eq_true, beq_iff_eq, beq_iff_eq]

theorem check_if_range_quoted_false (md5hex : String → String) (mtime size : Nat) :
    check_if_range md5hex ("\"" ++ generate_etag md5hex mtime size ++ "\"") mtime size
      = false := by
  rw [← Bool.not_eq_true, check_if_range_iff]
  rintro (h | h)
  · exact quoted_ne_self _ h
  · exact quoted_ne_formatdate _ _ h

end FastapiRange

namespace FastapiRange

/-- C10: `common_headers` serves the ETag double-quoted
(`"<digest>"`), while `check_if_range` compares the raw `If-Range` value
against the *unquoted* digest (and against the HTTP-date); hence a client
echoing the served `etag` header value back in `If-Range` never matches,
whatever the digest function returns. -/
theorem etag_quoted_if_range_never_matches (md5hex : String → String)
    (downloadName : Option String) (mediaType path : String) (mtime size : Nat) :
    (common_headers md5hex downloadName mediaType path mtime size).lookup "etag"
      = some ("\"" ++ generate_etag md5hex mtime size ++ "\"") ∧
    check_if_range md5hex ("\"" ++ generate_etag md5hex mtime size ++ "\"") mtime size
      = false := by
  constructor
  · unfold common_headers
    rw [List.cons_append, List.cons_append, List.cons_append,
      List.lookup_cons, List.lookup_cons, List.lookup_cons]
    rfl
  · exact check_if_range_quoted_false md5hex mtime size

/-! ## Lemmas: response statuses of the handlers (for C9) -/

theorem respStatus_handle_all (sho : Bool) (hs : List (String × String)) (mediaType : String)
    (size : Nat) (file : List Nat) (cs : Nat) :
    respStatus (some (handle_all sho hs mediaType size file cs)) = some 200 := rfl

theorem respStatus_handle_single_get (hs : List (String × String)) (mediaType : String)
    (size a b : Nat) (file : List Nat) (cs : Nat) :
    respStatus (some (handle_single_range false hs mediaType size a b file cs)) = some 206 := rfl

theorem respStatus_handle_single_head (hs : List (String × String)) (mediaType : String)
    (size a b : Nat) (file : List Nat) (cs : Nat) :
    respStatus (some (handle_single_range true hs mediaType size a b file cs)) = none := rfl

theorem respStatus_handle_multiple (sho : Bool) (hs : List (String × String))
    (mediaType : String) (size : Nat) (boundary : String) (ranges : List (Nat × Nat))
    (file : List Nat) (cs : Nat) :
    respStatus (some (handle_multiple_range sho hs mediaType size boundary ranges file cs))
      = some 206 := rfl

theorem respStatus_range_branch_ne_200 (sho : Bool) (hs : List (String × String))
    (mediaType : String) (size : Nat) (boundary : String) (file : List Nat) (cs : Nat)
    (rng : String) :
    respStatus (range_branch sho hs mediaType size boundary file cs rng) ≠ some 200 := by
  unfold range_branch
  rcases parse_range rng size with err | rs
  · cases err <;> simp [errorEvents, respStatus]
  · rcases rs with _ | ⟨r, rs'⟩
    · simp [respStatus_handle_multiple]
    · rcases rs' with _ | ⟨r2, rs''⟩
      · cases sho
        · simp [respStatus_handle_single_get]
        · simp [respStatus_handle_single_head]
      · simp [respStatus_handle_multiple]

theorem range_branch_notsat {size : Nat} {rng : String}
    (h : parse_range rng size = .error (.notSatisfiable size)) (sho : Bool)
    (hs : List (String × String)) (mediaType : String) (boundary : String)
    (file : List Nat) (cs : Nat) :
    range_branch sho hs mediaType size boundary file cs rng
      = some [.start 416 [], .body (utf8Str (jsonDetail size)) false] := by
  unfold range_branch
  rw [h]
  rfl

theorem range_branch_single {size : Nat} {rng : String} {a b : Nat}
    (h : parse_range rng size = .ok [(a, b)]) (sho : Bool) (hs : List (String × String))
    (mediaType : String) (boundary : String) (file : List Nat) (cs : Nat) :
    range_branch sho hs mediaType size boundary file cs rng
      = some (handle_single_range sho hs mediaType size a b file cs) := by
  unfold range_branch
  rw [h]

/-- The gate condition of `call` in the situation C9 describes. -/
theorem call_model_eq (md5hex : String → String) (method : String)
    (reqHeaders : List (String × String)) (path : String) (downloadName : Option String)
    (mediaType : String) (mtime size : Nat) (file : List Nat) (chunkSize : Nat)
    (boundary : String) (hs0 : List (String × String)) :
    call_model md5hex method reqHeaders path downloadName mediaType mtime size file
        chunkSize boundary hs0 =
      if extractHeader "range" reqHeaders = ""
          ∨ (extractHeader "if-range" reqHeaders ≠ ""
              ∧ check_if_range md5hex (extractHeader "if-range" reqHeaders) mtime size) then
        some (handle_all (pyUpper method == "HEAD")
          ((common_headers md5hex downloadName mediaType path mtime size).foldl
            (fun h p => headerSet h p.1 p.2) hs0) mediaType size file chunkSize)
      else
        range_branch (pyUpper method == "HEAD")
          ((common_headers md5hex downloadName mediaType path mtime size).foldl
            (fun h p => headerSet h p.1 p.2) hs0)
          mediaType size boundary file chunkSize (extractHeader "range" reqHeaders) := rfl

end FastapiRange

namespace FastapiRange

/-- C9: with both `Range` and `If-Range` present, the full resource is
served with status 200 exactly when the `If-Range` value equals the
validator computed from `(mtime, size)` or the RFC 1123 GMT date of the
mtime; otherwise the response is produced from the `Range` header by
`range_branch` — status 206 for a single satisfiable range on a non-HEAD
request, 416 for an unsatisfiable one. -/
theorem if_range_gate (md5hex : String → String) (method path : String)
    (downloadName : Option String) (mediaType : String) (mtime size : Nat)
    (file : List Nat) (chunkSize : Nat) (boundary : String)
    (reqHeaders hs0 : List (String × String))
    (hrng : extractHeader "range" reqHeaders ≠ "")
    (hifr : extractHeader "if-range" reqHeaders ≠ "") :
    (respStatus (call_model md5hex method reqHeaders path downloadName mediaType mtime size
        file chunkSize boundary hs0) = some 200 ↔
      (extractHeader "if-range" reqHeaders = generate_etag md5hex mtime size ∨
       extractHeader "if-range" reqHeaders = formatdate mtime)) ∧
    (¬ (extractHeader "if-range" reqHeaders = generate_etag md5hex mtime size ∨
        extractHeader "if-range" reqHeaders = formatdate mtime) →
      (call_model md5hex method reqHeaders path downloadName mediaType mtime size file
          chunkSize boundary hs0
        = range_branch (pyUpper method == "HEAD")
            ((common_headers md5hex downloadName mediaType path mtime size).foldl
              (fun h p => headerSet h p.1 p.2) hs0)
            mediaType size boundary file chunkSize (extractHeader "range" reqHeaders)) ∧
      (parse_range (extractHeader "range" reqHeaders) size = .error (.notSatisfiable size) →
        respStatus (call_model md5hex method reqHeaders path downloadName mediaType mtime size
          file chunkSize boundary hs0) = some 416) ∧
      (∀ a b : Nat, parse_range (extractHeader "range" reqHeaders) size = .ok [(a, b)] →
        (pyUpper method == "HEAD") = false →
        respStatus (call_model md5hex method reqHeaders path downloadName mediaType mtime size
          file chunkSize boundary hs0) = some 206)) := by
  by_cases hm : (extractHeader "if-range" reqHeaders = generate_etag md5hex mtime size ∨
      extractHeader "if-range" reqHeaders = formatdate mtime)
  · have hcond : extractHeader "range" reqHeaders = ""
        ∨ (extractHeader "if-range" reqHeaders ≠ ""
            ∧ check_if_range md5hex (extractHeader "if-range" reqHeaders) mtime size) :=
      Or.inr ⟨hifr, (check_if_range_iff md5hex _ mtime size).mpr hm⟩
    rw [call_model_eq, if_pos hcond]
    exact ⟨by simp [respStatus_handle_all, hm], fun hneg => absurd hm hneg⟩
  · have hcond : ¬ (extractHeader "range" reqHeaders = ""
        ∨ (extractHeader "if-range" reqHeaders ≠ ""
            ∧ check_if_range md5hex (extractHeader "if-range" reqHeaders) mtime size)) := by
      rintro (h | ⟨-, hchk⟩)
      · exact hrng h
      · exact hm ((check_if_range_iff md5hex _ mtime size).mp hchk)
    rw [call_model_eq, if_neg hcond]
    refine ⟨⟨fun h200 => absurd h200 (respStatus_range_branch_ne_200 _ _ _ _ _ _ _ _),
      fun h => absurd h hm⟩, fun _ => ⟨rfl, ?_, ?_⟩⟩
    · intro hns
      rw [range_branch_notsat hns]
      rfl
    · intro a b hok hget
      rw [range_branch_single hok, hget]
      exact respStatus_handle_single_get ..

/-- C9 witness: a concrete request where the `If-Range` value matches
neither validator form, so the range is honored with 206. -/
theorem if_range_gate_witness :
    (respStatus (call_model (fun _ => "d41d8cd98f00b204e9800998ecf8427e") "GET"
        [("range", "bytes=0-3"), ("if-range", "stale")] "f.bin" none "text/plain" 0 10
        (List.range 10) 4 "bnd" []) = some 200 ↔
      ("stale" = generate_etag (fun _ => "d41d8cd98f00b204e9800998ecf8427e") 0 10 ∨
       "stale" = formatdate 0)) ∧
    respStatus (call_model (fun _ => "d41d8cd98f00b204e9800998ecf8427e") "GET"
        [("range", "bytes=0-3"), ("if-range", "stale")] "f.bin" none "text/plain" 0 10
        (List.range 10) 4 "bnd" []) = some 206 := by
  have h := if_range_gate (fun _ => "d41d8cd98f00b204e9800998ecf8427e") "GET" "f.bin" none
    "text/plain" 0 10 (List.range 10) 4 "bnd"
    [("range", "bytes=0-3"), ("if-range", "stale")] [] (by decide) (by decide)
  have hm : ¬ (extractHeader "if-range" [("range", "bytes=0-3"), ("if-range", "stale")]
      = generate_etag (fun _ => "d41d8cd98f00b204e9800998ecf8427e") 0 10 ∨
      extractHeader "if-range" [("range", "bytes=0-3"), ("if-range", "stale")]
      = formatdate 0) := by decide
  refine ⟨?_, ?_⟩
  · exact h.1
  · exact (h.2 hm).2.2 0 3 (by decide) (by decide)

/-- C1: the chunked transmitter is broken.  For range `[0, 9]` with
`chunk_size = 4` on a 20-byte file, `parse_chunks` yields the windows
`(0,4), (4,8), (8,9)` and `send_file` issues sequential reads of
`sub_end + 1 - sub_start` bytes — 5, 5 and 2 bytes — so 12 bytes are
sent instead of `end - start + 1 = 10`, the first buffer exceeds the
chunk size, and bytes 10 and 11 do not belong to the requested interval;
a one-byte range `[5, 5]` produces no chunks and sends nothing. -/
theorem chunking_bug :
    parse_chunks 4 0 9 = [(0, 4), (4, 8), (8, 9)] ∧
    send_file_bytes (List.range 20) 4 0 9
      = [[0, 1, 2, 3, 4], [5, 6, 7, 8, 9], [10, 11]] ∧
    (((send_file_bytes (List.range 20) 4 0 9).map List.length).sum = 12 ∧ 9 - 0 + 1 = 10) ∧
    ((send_file_bytes (List.range 20) 4 0 9).all fun b => b.length ≤ 4) = false ∧
    send_file_bytes (List.range 20) 4 5 5 = [] := by
  decide

/-- C2: the multipart `content-length` precomputation counts
`end - start + 1` body bytes per range (matching the claimed wire
format), but the transmitter does not send that many: for ranges
`(0,9), (15,15)` on a 30-byte file with `chunk_size = 4` the declared
length is 124 while the body actually emitted by
`handle_multiple_range` measures 125 bytes (12 + 0 range-body bytes
instead of 10 + 1). -/
theorem multipart_length_bug :
    (parse_multiple_header "t" 30 [(0, 9), (15, 15)] "abc").1 = 124 ∧
    (bodyOfEvents (handle_multiple_range false [] "t" 30 "abc" [(0, 9), (15, 15)]
      (List.range 30) 4)).length = 125 ∧
    (parse_multiple_header "t" 30 [(0, 9), (15, 15)] "abc").1
      ≠ (bodyOfEvents (handle_multiple_range false [] "t" 30 "abc" [(0, 9), (15, 15)]
          (List.range 30) 4)).length := by
  decide

/-- C3: a `HEAD` request that resolves to a single range does *not*
produce the same framing as the equivalent `GET`: `handle_single_range`
checks `send_header_only` before sending `http.response.start`, so the
HEAD trace is a single empty body event with no start event — no status
and no headers at all — while the GET trace opens with status 206. -/
theorem head_single_range_bug :
    call_model (fun _ => "h") "HEAD" [("range", "bytes=0-0")] "f.bin" none "text/plain" 0 10
        (List.range 10) 4 "bnd" [] = some [.body [] false] ∧
    hasStartEvent ((call_model (fun _ => "h") "HEAD" [("range", "bytes=0-0")] "f.bin" none
        "text/plain" 0 10 (List.range 10) 4 "bnd" []).getD []) = false ∧
    respStatus (call_model (fun _ => "h") "HEAD" [("range", "bytes=0-0")] "f.bin" none
        "text/plain" 0 10 (List.range 10) 4 "bnd" []) = none ∧
    respStatus (call_model (fun _ => "h") "GET" [("range", "bytes=0-0")] "f.bin" none
        "text/plain" 0 10 (List.range 10) 4 "bnd" []) = some 206 := by
  decide

/-- C4 counterexample: `bytes=-500` against a 1000-byte resource does
not collapse to `MalformedRangeHeaderError`; it raises the uncaught
`ValueError` of `int('')`. -/
theorem suffix_not_malformed_counterexample :
    parse_range "bytes=-500" 1000 = .error .valueError ∧
    isMalformedResult (parse_range "bytes=-500" 1000) = false := by
  decide

/-- C5 counterexample: `bytes=20-30` against a 10-byte resource yields
status 416, but the start event carries an *empty* header list — in
particular no `Content-Range` header with value `bytes */10`; the
`Content-Range` information appears only as JSON text in the body. -/
theorem notsat_no_header_counterexample :
    call_model (fun _ => "h") "GET" [("range", "bytes=20-30")] "f" none "text/plain" 0 10
        (List.range 10) 4 "bnd" []
      = some [.start 416 [], .body (utf8Str (jsonDetail 10)) false] ∧
    respHeaders (call_model (fun _ => "h") "GET" [("range", "bytes=20-30")] "f" none
        "text/plain" 0 10 (List.range 10) 4 "bnd" []) = some [] ∧
    (((respHeaders (call_model (fun _ => "h") "GET" [("range", "bytes=20-30")] "f" none
        "text/plain" 0 10 (List.range 10) 4 "bnd" [])).getD []).any
      fun p => p.2 == "bytes */10") = false := by
  decide

/-- C5 (amended): a request whose Range is out of bounds is answered
with status 416, an empty header list (`RangeNotSatisfiableError` sets
no headers; `to_raw_headers(None)` yields `[]`, so no `Content-Range`
header is sent), and a body holding the JSON detail text
`{"Content-Range": "*/<size>"}`. -/
theorem notsat_response (md5hex : String → String) (method path : String)
    (downloadName : Option String) (mediaType : String) (mtime size : Nat)
    (file : List Nat) (chunkSize : Nat) (boundary : String)
    (reqHeaders hs0 : List (String × String))
    (hrng : extractHeader "range" reqHeaders ≠ "")
    (hifr : ¬ (extractHeader "if-range" reqHeaders ≠ ""
        ∧ check_if_range md5hex (extractHeader "if-range" reqHeaders) mtime size = true))
    (hp : parse_range (extractHeader "range" reqHeaders) size
        = .error (.notSatisfiable size)) :
    call_model md5hex method reqHeaders path downloadName mediaType mtime size file chunkSize
        boundary hs0
      = some [.start 416 [], .body (utf8Str (jsonDetail size)) false] := by
  rw [call_model_eq, if_neg ?_]
  · exact range_branch_notsat hp _ _ _ _ _ _
  · rintro (h | h)
    · exact hrng h
    · exact hifr h

/-- C5 (amended) witness: a concrete out-of-bounds request, answered 416
with empty headers and the JSON body. -/
theorem notsat_response_witness :
    call_model (fun _ => "h") "GET" [("range", "bytes=5-,99-")] "g" none "text/plain" 3 7
        (List.range 7) 4 "bnd" []
      = some [.start 416 [], .body (utf8Str (jsonDetail 7)) false] :=
  notsat_response (fun _ => "h") "GET" "g" none "text/plain" 3 7 (List.range 7) 4 "bnd"
    [("range", "bytes=5-,99-")] [] (by decide) (by decide) (by decide)

end FastapiRange
